import Mathlib

/-!
Verification of go-electrum, package wallet (wallet/wallet.go)

A shallow embedding of the wallet wrapper.  The wrapper owns no state of its
own: every function sequences calls into btcwallet (walletdb, waddrmgr,
wallet).  Those libraries are outside the repository, so they are taken as
parameters: an environment `Env` gives, for each library entry point, the
values it returns.  Each entry point receives the list of library calls made
so far, so the environment may be stateful in an arbitrary (deterministic)
way.  The embedded functions thread that list explicitly; it is the only
state.

Go conventions used throughout:
* a multi-value return `(v, err)` is a pair `α × Option Error`, `none` being
  the nil error;
* a slice is a `List`, the nil slice being `[]`;
* a pointer result `*Wallet` is an `Option Wallet`, `none` being nil;
* `int` is `Int`, `uint32` is a `Nat` below `2 ^ 32`, conversions are written
  out with `%`.
-/

namespace GoElectrum

/-! ## Library data -/

/-- Go error value (non-nil); the nil error is `none : Option Error`. -/
structure Error where
  msg : String
deriving DecidableEq, Repr

/-- Interface value btcutil.Address: the nil interface or an address,
identified by its encoding. -/
inductive Address where
  | nil
  | addr (encoded : String)
deriving DecidableEq, Repr

/-- Interface waddrmgr.ManagedAddress, with the two methods that identify an
address record: `Account()` and `Address()`. -/
structure ManagedAddress where
  Account : Nat
  Address : Address
deriving DecidableEq, Repr

/-- Handle walletdb.DB. -/
structure DB where
  id : Nat
deriving DecidableEq, Repr

/-- Handle walletdb.Namespace. -/
structure Namespace where
  id : Nat
deriving DecidableEq, Repr

/-- Handle *waddrmgr.Manager. -/
structure AddrManager where
  id : Nat
deriving DecidableEq, Repr

/-- Handle *wallet.Wallet of btcwallet. -/
structure BtcWallet where
  id : Nat
deriving DecidableEq, Repr

/-- Value *wire.MsgTx / authored transaction returned by CreateSimpleTx. -/
structure Tx where
  id : Nat
deriving DecidableEq, Repr

/-- Network parameters (netparams.Params.Params). -/
inductive ChainParams where
  | MainNetParams
  | TestNet3Params
  | SimNetParams
deriving DecidableEq, Repr

/-- Struct waddrmgr.Options (scrypt parameters), passed as nil by this package. -/
structure Options where
  N : Nat
  R : Nat
  P : Nat
deriving DecidableEq, Repr

/-- Struct waddrmgr.OpenCallbacks: two thunks returning `([]byte, error)`. -/
structure OpenCallbacks where
  ObtainSeed : Unit → List UInt8 × Option Error
  ObtainPrivatePass : Unit → List UInt8 × Option Error

/-- Conversion `[]byte(s)`: the UTF-8 bytes of a Go string. -/
def bytesOf (s : String) : List UInt8 := s.toUTF8.data.toList

/-- Conversion `uint32(n)` of a Go int: the low 32 bits. -/
def uint32 (n : Int) : Nat := (n % 2 ^ 32).toNat

/-- Conversion `int32(n)` of a Go int: the low 32 bits, read as signed. -/
def int32 (n : Int) : Int := (n + 2 ^ 31) % 2 ^ 32 - 2 ^ 31

/-! ## Library calls -/

/-- One call into the libraries, with its arguments. `dbClose` is the method
`Close` of walletdb.DB. -/
inductive Call where
  | walletdbCreate (dbType path : String)
  | walletdbOpen (dbType path : String)
  | dbNamespace (db : DB) (key : List UInt8)
  | dbClose (db : DB)
  | waddrmgrCreate (ns : Namespace) (seed pubPass privPass : List UInt8)
      (params : ChainParams) (config : Option Options)
  | managerClose (m : AddrManager)
  | walletOpen (pubPass : List UInt8) (params : ChainParams) (db : DB)
      (waddrmgrNS wtxmgrNS : Namespace)
  | LastAccount (w : BtcWallet)
  | ForEachAccountAddress (w : BtcWallet) (account : Nat)
  | NextExternalAddresses (w : BtcWallet) (account : Nat) (numAddresses : Nat)
  | CreateSimpleTx (w : BtcWallet) (account : Nat) (outputs : List (String × Int))
      (minconf : Int)
deriving DecidableEq, Repr

/-- Behaviour of one run of `Manager.ForEachAccountAddress`: the manager either
finishes with its error result, or hands one managed address to the visitor
and continues according to the error the visitor returned. -/
inductive Iteration where
  | done (err : Option Error)
  | visit (maddr : ManagedAddress) (next : Option Error → Iteration)

/-- Run an iteration against a visitor that updates a captured variable of
type `σ` and returns an error value. -/
def Iteration.run {σ : Type} (fn : ManagedAddress → σ → σ × Option Error) :
    Iteration → σ → σ × Option Error
  | .done err, s => (s, err)
  | .visit maddr next, s => (next (fn maddr s).2).run fn (fn maddr s).1

/-- The managed addresses an iteration hands out, in order, and the error it
ends with, when the visitor returns nil every time. -/
def Iteration.visited : Iteration → List ManagedAddress × Option Error
  | .done err => ([], err)
  | .visit maddr next => (maddr :: (next none).visited.1, (next none).visited.2)

/-- The libraries, as seen from this package.  Every entry takes the calls
made before it. -/
structure Env where
  walletdbCreate : List Call → String → String → DB × Option Error
  walletdbOpen : List Call → String → String → DB × Option Error
  dbNamespace : List Call → DB → List UInt8 → Namespace × Option Error
  waddrmgrCreate : List Call → Namespace → List UInt8 → List UInt8 → List UInt8 →
    ChainParams → Option Options → AddrManager × Option Error
  walletOpen : List Call → List UInt8 → ChainParams → DB → Namespace → Namespace →
    OpenCallbacks → BtcWallet × Option Error
  LastAccount : List Call → BtcWallet → Nat × Option Error
  ForEachAccountAddress : List Call → BtcWallet → Nat → Iteration
  NextExternalAddresses : List Call → BtcWallet → Nat → Nat →
    List ManagedAddress × Option Error
  CreateSimpleTx : List Call → BtcWallet → Nat → List (String × Int) → Int →
    Tx × Option Error

/-! ## The package -/

/-- Package variable `waddrmgrNamespaceKey`. -/
def waddrmgrNamespaceKey : List UInt8 := bytesOf "waddrmgrNamespace"

/-- Package variable `wtxmgrNamespaceKey`. -/
def wtxmgrNamespaceKey : List UInt8 := bytesOf "wtxmgr"

/-- Package variable `bitcoinNetwork` (its field Params). -/
def bitcoinNetwork : ChainParams := ChainParams.MainNetParams

/-- Struct `Wallet`. -/
structure Wallet where
  wallet : BtcWallet
deriving DecidableEq, Repr

/-- How a Go function body ends: at a return statement with a value, or by
running past its last statement without one. -/
inductive Outcome (α : Type) where
  | returned (v : α)
  | noReturn
deriving DecidableEq, Repr

/-- Method `(*Wallet).Addresses`. -/
def Addresses (env : Env) (w : Wallet) (log : List Call) :
    (List Address × Option Error) × List Call :=
  let r := env.LastAccount log w.wallet
  let log1 := log ++ [Call.LastAccount w.wallet]
  match r.2 with
  | some err => (([], some err), log1)
  | none =>
    let acc := r.1
    let it := env.ForEachAccountAddress log1 w.wallet acc
    let log2 := log1 ++ [Call.ForEachAccountAddress w.wallet acc]
    let out := it.run (fun maddr addrs => (addrs ++ [maddr.Address], none)) []
    match out.2 with
    | some err => (([], some err), log2)
    | none => ((out.1, none), log2)

/-- Function `stripManagedAddrs`: allocate `len(mAddrs)` nil entries, then
assign entry `i` for each `(i, addr)` of the range loop. -/
def stripManagedAddrs (mAddrs : List ManagedAddress) : List Address :=
  mAddrs.enum.foldl (fun addrs p => addrs.set p.1 p.2.Address)
    (List.replicate mAddrs.length Address.nil)

/-- Method `(*Wallet).GenAddresses`. -/
def GenAddresses (env : Env) (w : Wallet) (n : Int) (log : List Call) :
    (List Address × Option Error) × List Call :=
  let r := env.LastAccount log w.wallet
  let log1 := log ++ [Call.LastAccount w.wallet]
  match r.2 with
  | some err => (([], some err), log1)
  | none =>
    let acc := r.1
    let m := env.NextExternalAddresses log1 w.wallet acc (uint32 n)
    let log2 := log1 ++ [Call.NextExternalAddresses w.wallet acc (uint32 n)]
    match m.2 with
    | some err => (([], some err), log2)
    | none => ((stripManagedAddrs m.1, none), log2)

/-- Method `(*Wallet).SendBitcoin`.  The body ends after the assignment
`tx, err := w.wallet.CreateSimpleTx(...)`; no return statement follows it. -/
def SendBitcoin (env : Env) (w : Wallet) (to_ : List (String × Int)) (minconf : Int)
    (log : List Call) : Outcome (Option Error) × List Call :=
  let r := env.LastAccount log w.wallet
  let log1 := log ++ [Call.LastAccount w.wallet]
  match r.2 with
  | some err => (Outcome.returned (some err), log1)
  | none =>
    match r.2 with
    | some err => (Outcome.returned (some err), log1)
    | none =>
      let acc := r.1
      let _tx := env.CreateSimpleTx log1 w.wallet acc to_ (int32 minconf)
      let log2 := log1 ++ [Call.CreateSimpleTx w.wallet acc to_ (int32 minconf)]
      (Outcome.noReturn, log2)

/-- Function `returnBytes`. -/
def returnBytes (bytes : List UInt8) : Unit → List UInt8 × Option Error :=
  fun _ => (bytes, none)

/-- Function `openWallet`. -/
def openWallet (env : Env) (db : DB) (privPass : String) (seed : List UInt8)
    (log : List Call) : (Option Wallet × Option Error) × List Call :=
  let a := env.dbNamespace log db waddrmgrNamespaceKey
  let log1 := log ++ [Call.dbNamespace db waddrmgrNamespaceKey]
  match a.2 with
  | some err => ((none, some err), log1)
  | none =>
    let addrMgrNS := a.1
    let t := env.dbNamespace log1 db wtxmgrNamespaceKey
    let log2 := log1 ++ [Call.dbNamespace db wtxmgrNamespaceKey]
    match t.2 with
    | some err => ((none, some err), log2)
    | none =>
      let txMgrNS := t.1
      let cbs : OpenCallbacks :=
        { ObtainSeed := returnBytes seed
          ObtainPrivatePass := returnBytes (bytesOf privPass) }
      let o := env.walletOpen log2 [] bitcoinNetwork db addrMgrNS txMgrNS cbs
      let log3 := log2 ++ [Call.walletOpen [] bitcoinNetwork db addrMgrNS txMgrNS]
      match o.2 with
      | some err => ((none, some err), log3)
      | none => ((some { wallet := o.1 }, none), log3)

/-- Function `CreateWallet`. -/
def CreateWallet (env : Env) (path privPass : String) (seed : List UInt8)
    (log : List Call) : (Option Wallet × Option Error) × List Call :=
  let d := env.walletdbCreate log "bdb" path
  let log1 := log ++ [Call.walletdbCreate "bdb" path]
  match d.2 with
  | some err => ((none, some err), log1)
  | none =>
    let db := d.1
    let ns := env.dbNamespace log1 db waddrmgrNamespaceKey
    let log2 := log1 ++ [Call.dbNamespace db waddrmgrNamespaceKey]
    match ns.2 with
    | some err => ((none, some err), log2)
    | none =>
      let namespace_ := ns.1
      let m := env.waddrmgrCreate log2 namespace_ seed [] (bytesOf privPass)
        bitcoinNetwork none
      let log3 := log2 ++ [Call.waddrmgrCreate namespace_ seed [] (bytesOf privPass)
        bitcoinNetwork none]
      match m.2 with
      | some err => ((none, some err), log3)
      | none =>
        let manager := m.1
        let log4 := log3 ++ [Call.managerClose manager]
        openWallet env db privPass seed log4

/-- Function `LoadWallet`. -/
def LoadWallet (env : Env) (path privPass : String) (seed : List UInt8)
    (log : List Call) : (Option Wallet × Option Error) × List Call :=
  let d := env.walletdbOpen log "bdb" path
  let log1 := log ++ [Call.walletdbOpen "bdb" path]
  match d.2 with
  | some err => ((none, some err), log1)
  | none => openWallet env d.1 privPass seed log1

/-! ## Concrete library behaviours, used to evaluate the package -/

/-- A manager run that hands out the given records in order and ends with
`last`, stopping early with the visitor's error when the visitor fails. -/
def iterOfList : List ManagedAddress → Option Error → Iteration
  | [], last => Iteration.done last
  | m :: rest, last =>
    Iteration.visit m (fun r =>
      match r with
      | none => iterOfList rest last
      | some err => Iteration.done (some err))

/-- Error of waddrmgr when no account exists. -/
def errNoAccount : Error := { msg := "account not found" }

/-- Error of walletdb.Create when the file exists. -/
def errDbExists : Error := { msg := "database already exists" }

/-- Error of walletdb.Open when the file is absent. -/
def errDbDoesNotExist : Error := { msg := "database does not exist" }

/-- Error of wallet.Open on a wrong passphrase. -/
def errWrongPassphrase : Error := { msg := "invalid passphrase for master private key" }

/-- Error of CreateSimpleTx when the eligible outputs do not cover the payment. -/
def errInsufficientFunds : Error := { msg := "insufficient funds" }

/-- Error of a failed database read during an iteration. -/
def errDbRead : Error := { msg := "failed to read address row" }

/-- First address record of account 0. -/
def maddr00 : ManagedAddress := { Account := 0, Address := Address.addr "1A" }

/-- Second address record of account 0. -/
def maddr01 : ManagedAddress := { Account := 0, Address := Address.addr "1B" }

/-- First address record of account 1. -/
def maddr10 : ManagedAddress := { Account := 1, Address := Address.addr "1C" }

/-- Second address record of account 1. -/
def maddr11 : ManagedAddress := { Account := 1, Address := Address.addr "1D" }

/-- Address records held per account in the sample wallet: two accounts. -/
def sampleRecords (account : Nat) : List ManagedAddress :=
  if account = 0 then [maddr00, maddr01]
  else if account = 1 then [maddr10]
  else []

/-- Records the sample manager can still hand out for an account. -/
def samplePool (account : Nat) : List ManagedAddress :=
  if account = 1 then [maddr11, { Account := 1, Address := Address.addr "1E" }]
  else []

/-- A library in which every call succeeds.  The wallet it opens has
accounts 0 and 1 (so LastAccount is 1) with the records of `sampleRecords`. -/
def envOk : Env where
  walletdbCreate := fun _ _ _ => ({ id := 1 }, none)
  walletdbOpen := fun _ _ _ => ({ id := 1 }, none)
  dbNamespace := fun log _ _ => ({ id := log.length }, none)
  waddrmgrCreate := fun _ _ _ _ _ _ _ => ({ id := 3 }, none)
  walletOpen := fun _ _ _ _ _ _ _ => ({ id := 7 }, none)
  LastAccount := fun _ _ => (1, none)
  ForEachAccountAddress := fun _ _ account => iterOfList (sampleRecords account) none
  NextExternalAddresses := fun _ _ account n => ((samplePool account).take n, none)
  CreateSimpleTx := fun _ _ _ _ _ => ({ id := 9 }, none)

/-- The wallet handle `envOk` opens. -/
def w0 : Wallet := { wallet := { id := 7 } }

/-- As `envOk`, but no account exists. -/
def envNoAccount : Env :=
  { envOk with LastAccount := fun _ _ => (0, some errNoAccount) }

/-- As `envOk`, but the iteration fails after the first record of an account. -/
def envIterFails : Env :=
  { envOk with
    ForEachAccountAddress := fun _ _ account =>
      iterOfList ((sampleRecords account).take 1) (some errDbRead) }

/-- As `envOk`, but CreateSimpleTx fails for lack of funds. -/
def envTxFails : Env :=
  { envOk with CreateSimpleTx := fun _ _ _ _ _ => ({ id := 0 }, some errInsufficientFunds) }

/-- As `envOk`, but a wallet database already exists at every path. -/
def envDbExists : Env :=
  { envOk with walletdbCreate := fun _ _ _ => ({ id := 0 }, some errDbExists) }

/-- As `envOk`, but no wallet database exists at any path. -/
def envDbAbsent : Env :=
  { envOk with walletdbOpen := fun _ _ _ => ({ id := 0 }, some errDbDoesNotExist) }

/-- As `envOk`, but wallet.Open rejects the passphrase. -/
def envWrongPass : Env :=
  { envOk with walletOpen := fun _ _ _ _ _ _ _ => ({ id := 0 }, some errWrongPassphrase) }

/-- Error of a manager that refuses the number of addresses it is asked for. -/
def errAddressCount : Error := { msg := "unexpected number of addresses" }

/-- As `envOk`, but NextExternalAddresses answers only a request for exactly
`c` addresses, with the record `maddr11`; any other count is refused. -/
def envAccepts (c : Nat) : Env :=
  { envOk with
    NextExternalAddresses := fun _ _ _ numAddresses =>
      if numAddresses = c then ([maddr11], none) else ([], some errAddressCount) }

/-! ## Auxiliary facts -/

/-- The range loop of `stripManagedAddrs`, started after a filled prefix. -/
theorem strip_loop (xs : List ManagedAddress) (pre : List Address) :
    (xs.enumFrom pre.length).foldl (fun addrs p => addrs.set p.1 p.2.Address)
      (pre ++ List.replicate xs.length Address.nil)
      = pre ++ xs.map (fun m => m.Address) := by
  induction xs generalizing pre with
  | nil => simp
  | cons x t ih =>
    have h := ih (pre ++ [x.Address])
    simp only [List.length_append, List.length_singleton, List.append_assoc,
      List.singleton_append] at h
    simp only [List.enumFrom_cons, List.foldl_cons, List.length_cons, List.replicate_succ,
      List.map_cons]
    rw [List.set_append_right _ _ (le_refl _)]
    simpa using h

/-- The loop of `stripManagedAddrs` computes the element-wise image. -/
theorem stripManagedAddrs_eq_map (xs : List ManagedAddress) :
    stripManagedAddrs xs = xs.map (fun m => m.Address) := by
  have h := strip_loop xs []
  simpa [stripManagedAddrs, List.enum] using h

/-- Running an iteration against the visitor of `Addresses` appends the
addresses of the visited records to the captured slice. -/
theorem run_collect (it : Iteration) (s : List Address) :
    it.run (fun maddr addrs => (addrs ++ [maddr.Address], none)) s
      = (s ++ it.visited.1.map (fun m => m.Address), it.visited.2) := by
  induction it generalizing s with
  | done err => simp [Iteration.run, Iteration.visited]
  | visit maddr next ih =>
    simp [Iteration.run, Iteration.visited, ih]


/-! ## Address generation -/

/-- C5: when LastAccount succeeds and NextExternalAddresses returns the list
`L` without error, GenAddresses returns a nil error and the list of the same
length as `L` whose i-th entry is the `Address()` of the i-th entry of `L`;
`stripManagedAddrs` is the element-wise image. -/
theorem GenAddresses_returns_stripped (env : Env) (w : Wallet) (n : Int) (log : List Call)
    (L : List ManagedAddress)
    (hacc : (env.LastAccount log w.wallet).2 = none)
    (hnext : env.NextExternalAddresses (log ++ [Call.LastAccount w.wallet]) w.wallet
      (env.LastAccount log w.wallet).1 (uint32 n) = (L, none)) :
    (GenAddresses env w n log).1.2 = none ∧
    (GenAddresses env w n log).1.1 = stripManagedAddrs L ∧
    stripManagedAddrs L = L.map (fun m => m.Address) ∧
    (GenAddresses env w n log).1.1.length = L.length ∧
    ∀ i : Nat, (GenAddresses env w n log).1.1[i]? = (L[i]?).map (fun m => m.Address) := by
  have hres : (GenAddresses env w n log).1 = (stripManagedAddrs L, none) := by
    simp [GenAddresses, hacc, hnext]
  rw [hres, stripManagedAddrs_eq_map]
  simp

/-- Witness of C5 on the sample wallet, two addresses requested. -/
theorem GenAddresses_returns_stripped_witness :
    (GenAddresses envOk w0 2 []).1.2 = none ∧
    (GenAddresses envOk w0 2 []).1.1 = stripManagedAddrs (samplePool 1) ∧
    stripManagedAddrs (samplePool 1) = (samplePool 1).map (fun m => m.Address) ∧
    (GenAddresses envOk w0 2 []).1.1.length = (samplePool 1).length ∧
    ∀ i : Nat, (GenAddresses envOk w0 2 []).1.1[i]?
      = ((samplePool 1)[i]?).map (fun m => m.Address) :=
  GenAddresses_returns_stripped envOk w0 2 [] (samplePool 1) rfl (by decide)

/-- C1, as stated, fails: on the sample wallet, which has an account, the
manager answers a request for zero addresses with an empty list and a nil
error, and GenAddresses(0) returns that nil error instead of failing. -/
theorem GenAddresses_zero_succeeds :
    (envOk.LastAccount [] w0.wallet).2 = none ∧ (0 : Int) ≤ 0 ∧
    (GenAddresses envOk w0 0 []).1 = ([], none) ∧
    ¬ ((GenAddresses envOk w0 0 []).1.2 ≠ none) := by
  decide

/-- C1, amended: for a wallet with an account and n <= 0, GenAddresses makes
no check of its own; it fails exactly when NextExternalAddresses, called with
uint32(n), fails, and then returns no addresses and the error of the manager
unchanged. -/
theorem GenAddresses_nonpositive_forwards (env : Env) (w : Wallet) (n : Int)
    (log : List Call) (_hn : n ≤ 0) (hacc : (env.LastAccount log w.wallet).2 = none) :
    (GenAddresses env w n log).1.2
      = (env.NextExternalAddresses (log ++ [Call.LastAccount w.wallet]) w.wallet
          (env.LastAccount log w.wallet).1 (uint32 n)).2 ∧
    ((GenAddresses env w n log).1.2 ≠ none → (GenAddresses env w n log).1.1 = []) := by
  cases hm : (env.NextExternalAddresses (log ++ [Call.LastAccount w.wallet]) w.wallet
      (env.LastAccount log w.wallet).1 (uint32 n)).2 <;>
    simp [GenAddresses, hacc, hm]

/-- Witness of the amended C1 on the sample wallet at n = -1. -/
theorem GenAddresses_nonpositive_forwards_witness :
    (GenAddresses envOk w0 (-1) []).1.2
      = (envOk.NextExternalAddresses ([] ++ [Call.LastAccount w0.wallet]) w0.wallet
          (envOk.LastAccount [] w0.wallet).1 (uint32 (-1))).2 ∧
    ((GenAddresses envOk w0 (-1) []).1.2 ≠ none → (GenAddresses envOk w0 (-1) []).1.1 = []) :=
  GenAddresses_nonpositive_forwards envOk w0 (-1) [] (by decide) rfl

/-- C10: when LastAccount succeeds, GenAddresses(n) makes exactly one request
to NextExternalAddresses, for uint32(n) addresses, whatever n is, and returns
what the manager answers to that request: the error of the manager at count
uint32(n), its records stripped when it reports none, no addresses otherwise.
That count is n modulo 2^32, n itself for 0 <= n < 2^32, the low 32 bits of
n + 2^32 for negative n (n + 2^32 when -2^32 <= n), and 4294967295 for
n = -1. -/
theorem GenAddresses_requests_uint32 (env : Env) (w : Wallet) (n : Int) (log : List Call)
    (hacc : (env.LastAccount log w.wallet).2 = none) :
    (GenAddresses env w n log).2
      = log ++ [Call.LastAccount w.wallet,
          Call.NextExternalAddresses w.wallet (env.LastAccount log w.wallet).1 (uint32 n)] ∧
    (GenAddresses env w n log).1.2
      = (env.NextExternalAddresses (log ++ [Call.LastAccount w.wallet]) w.wallet
          (env.LastAccount log w.wallet).1 (uint32 n)).2 ∧
    ((env.NextExternalAddresses (log ++ [Call.LastAccount w.wallet]) w.wallet
          (env.LastAccount log w.wallet).1 (uint32 n)).2 = none →
      (GenAddresses env w n log).1.1
        = stripManagedAddrs
            (env.NextExternalAddresses (log ++ [Call.LastAccount w.wallet]) w.wallet
              (env.LastAccount log w.wallet).1 (uint32 n)).1) ∧
    ((env.NextExternalAddresses (log ++ [Call.LastAccount w.wallet]) w.wallet
          (env.LastAccount log w.wallet).1 (uint32 n)).2 ≠ none →
      (GenAddresses env w n log).1.1 = []) ∧
    ((uint32 n : Nat) : Int) = n % 2 ^ 32 ∧
    (0 ≤ n → n < 2 ^ 32 → ((uint32 n : Nat) : Int) = n) ∧
    (n < 0 → ((uint32 n : Nat) : Int) = (n + 2 ^ 32) % 2 ^ 32) ∧
    (n < 0 → -(2 ^ 32) ≤ n → ((uint32 n : Nat) : Int) = n + 2 ^ 32) ∧
    uint32 (-1) = 4294967295 := by
  have hmod : ((uint32 n : Nat) : Int) = n % 2 ^ 32 := by
    unfold uint32
    exact Int.toNat_of_nonneg (Int.emod_nonneg n (by norm_num))
  refine ⟨?_, ?_, ?_, ?_, hmod, ?_, ?_, ?_, ?_⟩
  · cases hm : (env.NextExternalAddresses (log ++ [Call.LastAccount w.wallet]) w.wallet
        (env.LastAccount log w.wallet).1 (uint32 n)).2 <;>
      simp [GenAddresses, hacc, hm]
  · cases hm : (env.NextExternalAddresses (log ++ [Call.LastAccount w.wallet]) w.wallet
        (env.LastAccount log w.wallet).1 (uint32 n)).2 <;>
      simp [GenAddresses, hacc, hm]
  · intro hm
    simp [GenAddresses, hacc, hm]
  · intro hne
    cases hm : (env.NextExternalAddresses (log ++ [Call.LastAccount w.wallet]) w.wallet
        (env.LastAccount log w.wallet).1 (uint32 n)).2 with
    | none => exact absurd hm hne
    | some e => simp [GenAddresses, hacc, hm]
  · intro h0 h1
    rw [hmod]
    exact Int.emod_eq_of_lt h0 h1
  · intro _
    rw [hmod]
    simp
  · intro h0 h1
    rw [hmod, ← Int.add_emod_self]
    exact Int.emod_eq_of_lt (by linarith) (by linarith)
  · decide

/-- Witness of C10 at n = -1: the request is logged with count 4294967295; a
manager that answers only a request for 4294967295 addresses is answered, so
GenAddresses succeeds with its record; a manager that answers only a request
for 0 addresses refuses, so GenAddresses fails with its error. -/
theorem GenAddresses_requests_uint32_witness :
    (GenAddresses envOk w0 (-1) []).2
      = [Call.LastAccount w0.wallet, Call.NextExternalAddresses w0.wallet 1 4294967295] ∧
    (GenAddresses (envAccepts 4294967295) w0 (-1) []).1.2 = none ∧
    (GenAddresses (envAccepts 4294967295) w0 (-1) []).1.1 = stripManagedAddrs [maddr11] ∧
    (GenAddresses (envAccepts 0) w0 (-1) []).1.2 = some errAddressCount ∧
    (GenAddresses (envAccepts 0) w0 (-1) []).1.1 = [] :=
  ⟨(GenAddresses_requests_uint32 envOk w0 (-1) [] rfl).1,
   (GenAddresses_requests_uint32 (envAccepts 4294967295) w0 (-1) [] rfl).2.1,
   (GenAddresses_requests_uint32 (envAccepts 4294967295) w0 (-1) [] rfl).2.2.1 rfl,
   (GenAddresses_requests_uint32 (envAccepts 0) w0 (-1) [] rfl).2.1,
   (GenAddresses_requests_uint32 (envAccepts 0) w0 (-1) [] rfl).2.2.2.1 (by decide)⟩

/-! ## Address listing -/

/-- C9: when LastAccount returns account `a` and the iteration over the
addresses of `a` visits `ms` in that order and ends without error, Addresses
returns a nil error and exactly the `Address()` of each visited record, in
visiting order; the only iteration it starts is the one for `a`. -/
theorem Addresses_lists_last_account (env : Env) (w : Wallet) (log : List Call) (a : Nat)
    (ms : List ManagedAddress)
    (hacc : env.LastAccount log w.wallet = (a, none))
    (hvis : (env.ForEachAccountAddress (log ++ [Call.LastAccount w.wallet]) w.wallet a).visited
      = (ms, none)) :
    Addresses env w log
      = ((ms.map (fun m => m.Address), none),
         log ++ [Call.LastAccount w.wallet, Call.ForEachAccountAddress w.wallet a]) := by
  simp [Addresses, hacc, run_collect, hvis]

/-- Witness of C9 on the sample wallet, whose last account is 1. -/
theorem Addresses_lists_last_account_witness :
    Addresses envOk w0 []
      = (([maddr10].map (fun m => m.Address), none),
         [] ++ [Call.LastAccount w0.wallet, Call.ForEachAccountAddress w0.wallet 1]) :=
  Addresses_lists_last_account envOk w0 [] 1 [maddr10] rfl rfl

/-- C4: if LastAccount fails with `e`, or LastAccount succeeds and the
iteration ends with error `e` after visiting any records `ms`, Addresses
returns exactly (nil, e): the collected addresses are dropped and the error is
the same value. -/
theorem Addresses_propagates_errors (env : Env) (w : Wallet) (log : List Call) (e : Error)
    (ms : List ManagedAddress)
    (h : (env.LastAccount log w.wallet).2 = some e ∨
      ((env.LastAccount log w.wallet).2 = none ∧
        (env.ForEachAccountAddress (log ++ [Call.LastAccount w.wallet]) w.wallet
          (env.LastAccount log w.wallet).1).visited = (ms, some e))) :
    (Addresses env w log).1 = ([], some e) := by
  rcases h with h | ⟨hacc, hvis⟩
  · simp [Addresses, h]
  · simp [Addresses, hacc, run_collect, hvis]

/-- Witness of C4: LastAccount failing, and the iteration failing after one
record was visited. -/
theorem Addresses_propagates_errors_witness :
    (Addresses envNoAccount w0 []).1 = ([], some errNoAccount) ∧
    (Addresses envIterFails w0 []).1 = ([], some errDbRead) :=
  ⟨Addresses_propagates_errors envNoAccount w0 [] errNoAccount [] (Or.inl rfl),
   Addresses_propagates_errors envIterFails w0 [] errDbRead [maddr10] (Or.inr ⟨rfl, rfl⟩)⟩

/-- C2 fails on the code: in the sample wallet, with accounts 0 and 1 and all
manager calls succeeding, the records of account 0 are generated addresses of
the wallet, yet Addresses returns only the address of account 1. -/
theorem Addresses_omits_earlier_accounts :
    (envOk.LastAccount [] w0.wallet) = (1, none) ∧
    (envOk.ForEachAccountAddress [] w0.wallet 0).visited = ([maddr00, maddr01], none) ∧
    (Addresses envOk w0 []).1 = ([Address.addr "1C"], none) ∧
    maddr00.Address ∉ (Addresses envOk w0 []).1.1 := by
  decide

/-! ## Sending -/

/-- C3 fails on the code: on the sample wallet with CreateSimpleTx failing for
lack of funds, SendBitcoin calls CreateSimpleTx and then reaches the end of
its body without a return statement; the error is not returned. -/
theorem SendBitcoin_drops_error :
    (envTxFails.CreateSimpleTx [Call.LastAccount w0.wallet] w0.wallet 1 [("1C", 1)]
      (int32 1)).2 = some errInsufficientFunds ∧
    SendBitcoin envTxFails w0 [("1C", 1)] 1 []
      = (Outcome.noReturn,
         [Call.LastAccount w0.wallet, Call.CreateSimpleTx w0.wallet 1 [("1C", 1)] 1]) ∧
    (SendBitcoin envTxFails w0 [("1C", 1)] 1 []).1
      ≠ Outcome.returned (some errInsufficientFunds) := by
  decide

/-! ## Creating and loading -/

/-- C6: if walletdb.Create fails with `e`, CreateWallet returns (nil, e) and
the only library call it has made is that Create: no namespace is requested,
no address manager is created and no wallet is opened. -/
theorem CreateWallet_stops_when_db_exists (env : Env) (path privPass : String)
    (seed : List UInt8) (log : List Call) (e : Error)
    (hdb : (env.walletdbCreate log "bdb" path).2 = some e) :
    CreateWallet env path privPass seed log
      = ((none, some e), log ++ [Call.walletdbCreate "bdb" path]) := by
  simp [CreateWallet, hdb]

/-- Witness of C6: a database already exists at the path. -/
theorem CreateWallet_stops_when_db_exists_witness :
    CreateWallet envDbExists "wallet.db" "secret" [1, 2, 3] []
      = ((none, some errDbExists), [] ++ [Call.walletdbCreate "bdb" "wallet.db"]) :=
  CreateWallet_stops_when_db_exists envDbExists "wallet.db" "secret" [1, 2, 3] []
    errDbExists rfl

/-- C7: LoadWallet returns a non-nil handle with a nil error exactly when
walletdb.Open, the two Namespace calls and wallet.Open all succeed, the handle
wrapping the wallet that wallet.Open returned; otherwise it returns a nil
handle with the error of the first of these steps that fails, unchanged. -/
theorem LoadWallet_result (env : Env) (path privPass : String) (seed : List UInt8)
    (log : List Call) :
    let d := env.walletdbOpen log "bdb" path
    let log1 := log ++ [Call.walletdbOpen "bdb" path]
    let a := env.dbNamespace log1 d.1 waddrmgrNamespaceKey
    let log2 := log1 ++ [Call.dbNamespace d.1 waddrmgrNamespaceKey]
    let t := env.dbNamespace log2 d.1 wtxmgrNamespaceKey
    let log3 := log2 ++ [Call.dbNamespace d.1 wtxmgrNamespaceKey]
    let o := env.walletOpen log3 [] bitcoinNetwork d.1 a.1 t.1
      { ObtainSeed := returnBytes seed, ObtainPrivatePass := returnBytes (bytesOf privPass) }
    let res := (LoadWallet env path privPass seed log).1
    ((∃ w : Wallet, res = (some w, none))
      ↔ (d.2 = none ∧ a.2 = none ∧ t.2 = none ∧ o.2 = none)) ∧
    (d.2 = none → a.2 = none → t.2 = none → o.2 = none →
      res = (some { wallet := o.1 }, none)) ∧
    (∀ e, d.2 = some e → res = (none, some e)) ∧
    (∀ e, d.2 = none → a.2 = some e → res = (none, some e)) ∧
    (∀ e, d.2 = none → a.2 = none → t.2 = some e → res = (none, some e)) ∧
    (∀ e, d.2 = none → a.2 = none → t.2 = none → o.2 = some e → res = (none, some e)) := by
  intro d log1 a log2 t log3 o res
  have hres : res = (LoadWallet env path privPass seed log).1 := rfl
  cases hd : d.2 with
  | some ed =>
    have : res = (none, some ed) := by
      rw [hres]; simp only [LoadWallet]; rw [show (env.walletdbOpen log "bdb" path).2 = some ed from hd]
    simp [this]
  | none =>
    cases ha : a.2 with
    | some ea =>
      have : res = (none, some ea) := by
        rw [hres]; simp only [LoadWallet, openWallet]
        rw [show (env.walletdbOpen log "bdb" path).2 = none from hd]
        simp only []
        rw [show (env.dbNamespace log1 d.1 waddrmgrNamespaceKey).2 = some ea from ha]
      simp [this]
    | none =>
      cases ht : t.2 with
      | some et =>
        have : res = (none, some et) := by
          rw [hres]; simp only [LoadWallet, openWallet]
          rw [show (env.walletdbOpen log "bdb" path).2 = none from hd]
          simp only []
          rw [show (env.dbNamespace log1 d.1 waddrmgrNamespaceKey).2 = none from ha]
          simp only []
          rw [show (env.dbNamespace log2 d.1 wtxmgrNamespaceKey).2 = some et from ht]
        simp [this]
      | none =>
        cases ho : o.2 with
        | some eo =>
          have : res = (none, some eo) := by
            rw [hres]; simp only [LoadWallet, openWallet]
            rw [show (env.walletdbOpen log "bdb" path).2 = none from hd]
            simp only []
            rw [show (env.dbNamespace log1 d.1 waddrmgrNamespaceKey).2 = none from ha]
            simp only []
            rw [show (env.dbNamespace log2 d.1 wtxmgrNamespaceKey).2 = none from ht]
            simp only []
            rw [show (env.walletOpen log3 [] bitcoinNetwork d.1 a.1 t.1
              { ObtainSeed := returnBytes seed,
                ObtainPrivatePass := returnBytes (bytesOf privPass) }).2 = some eo from ho]
          simp [this]
        | none =>
          have : res = (some { wallet := o.1 }, none) := by
            rw [hres]; simp only [LoadWallet, openWallet]
            rw [show (env.walletdbOpen log "bdb" path).2 = none from hd]
            simp only []
            rw [show (env.dbNamespace log1 d.1 waddrmgrNamespaceKey).2 = none from ha]
            simp only []
            rw [show (env.dbNamespace log2 d.1 wtxmgrNamespaceKey).2 = none from ht]
            simp only []
            rw [show (env.walletOpen log3 [] bitcoinNetwork d.1 a.1 t.1
              { ObtainSeed := returnBytes seed,
                ObtainPrivatePass := returnBytes (bytesOf privPass) }).2 = none from ho]
          simp [this]

/-- Witness of C7: every step succeeding, the database absent, and wallet.Open
rejecting the passphrase. -/
theorem LoadWallet_result_witness :
    (LoadWallet envOk "wallet.db" "secret" [1, 2, 3] []).1 = (some w0, none) ∧
    (LoadWallet envDbAbsent "wallet.db" "secret" [1, 2, 3] []).1
      = (none, some errDbDoesNotExist) ∧
    (LoadWallet envWrongPass "wallet.db" "secret" [1, 2, 3] []).1
      = (none, some errWrongPassphrase) :=
  ⟨(LoadWallet_result envOk "wallet.db" "secret" [1, 2, 3] []).2.1 rfl rfl rfl rfl,
   (LoadWallet_result envDbAbsent "wallet.db" "secret" [1, 2, 3] []).2.2.1
     errDbDoesNotExist rfl,
   (LoadWallet_result envWrongPass "wallet.db" "secret" [1, 2, 3] []).2.2.2.2.2
     errWrongPassphrase rfl rfl rfl rfl⟩

/-- Calls made by `openWallet`: the log only grows, and by no Close on a
database handle. -/
theorem openWallet_calls (env : Env) (db : DB) (privPass : String) (seed : List UInt8)
    (log : List Call) :
    ∃ added, (openWallet env db privPass seed log).2 = log ++ added ∧
      ∀ x, Call.dbClose x ∉ added := by
  unfold openWallet
  simp only []
  split
  · exact ⟨_, rfl, by simp⟩
  · split
    · exact ⟨_, List.append_assoc _ _ _, by simp⟩
    · split
      · exact ⟨_, (List.append_assoc _ _ _).trans (List.append_assoc _ _ _), by simp⟩
      · exact ⟨_, (List.append_assoc _ _ _).trans (List.append_assoc _ _ _), by simp⟩

/-- Calls made by `openWallet` when started after calls `pre` that close no
database handle. -/
theorem openWallet_calls_from (env : Env) (db : DB) (privPass : String) (seed : List UInt8)
    (log pre : List Call) (hpre : ∀ x, Call.dbClose x ∉ pre) :
    ∃ added, (openWallet env db privPass seed (log ++ pre)).2 = log ++ added ∧
      ∀ x, Call.dbClose x ∉ added := by
  obtain ⟨added, h, hx⟩ := openWallet_calls env db privPass seed (log ++ pre)
  refine ⟨pre ++ added, ?_, ?_⟩
  · rw [h, List.append_assoc]
  · intro x
    simp [hpre x, hx x]

/-- C8, as stated, fails: on the sample library with wallet.Open rejecting the
passphrase, LoadWallet opens database handle 1, returns the error of
wallet.Open, and has made no Close call on the handle. -/
theorem LoadWallet_leaves_db_open :
    envWrongPass.walletdbOpen [] "bdb" "wallet.db" = ({ id := 1 }, none) ∧
    (LoadWallet envWrongPass "wallet.db" "secret" [1, 2, 3] []).1
      = (none, some errWrongPassphrase) ∧
    Call.dbClose { id := 1 } ∉ (LoadWallet envWrongPass "wallet.db" "secret" [1, 2, 3] []).2 := by
  refine ⟨rfl, rfl, ?_⟩
  simp [LoadWallet, openWallet, envWrongPass, envOk]

/-- C8, amended: CreateWallet and LoadWallet never close the database handle
themselves.  On every execution, so on each one in which the handle was
created or opened and a later step fails, the calls they add to the log
include no Close on a database handle. -/
theorem setup_never_closes_db (env : Env) (path privPass : String) (seed : List UInt8)
    (log : List Call) :
    (∃ added, (CreateWallet env path privPass seed log).2 = log ++ added ∧
      ∀ x, Call.dbClose x ∉ added) ∧
    (∃ added, (LoadWallet env path privPass seed log).2 = log ++ added ∧
      ∀ x, Call.dbClose x ∉ added) := by
  constructor
  · unfold CreateWallet
    simp only []
    split
    · exact ⟨_, rfl, by simp⟩
    · split
      · exact ⟨_, List.append_assoc _ _ _, by simp⟩
      · split
        · exact ⟨_, (List.append_assoc _ _ _).trans (List.append_assoc _ _ _), by simp⟩
        · simp only [List.append_assoc]
          exact openWallet_calls_from env _ privPass seed log _ (by simp)
  · unfold LoadWallet
    simp only []
    split
    · exact ⟨_, rfl, by simp⟩
    · exact openWallet_calls_from env _ privPass seed log _ (by simp)

/-- Instance of the amended C8 on the run in which wallet.Open fails. -/
theorem setup_never_closes_db_witness :
    (∃ added, (CreateWallet envWrongPass "wallet.db" "secret" [1, 2, 3] []).2 = [] ++ added ∧
      ∀ x, Call.dbClose x ∉ added) ∧
    (∃ added, (LoadWallet envWrongPass "wallet.db" "secret" [1, 2, 3] []).2 = [] ++ added ∧
      ∀ x, Call.dbClose x ∉ added) :=
  setup_never_closes_db envWrongPass "wallet.db" "secret" [1, 2, 3] []

end GoElectrum
